import Mathlib

/-!
# Verification of the bcoin-wrapper node client (src/index.js)

Shallow embedding of the `Node` class: the dispatch/failover `handler`,
the constructor, `getBlocks` and `getBalance`, together with proofs of the
spec's testable properties.

Modelling conventions:
* JS strings are `String`, JS integers are `Int`/`Nat`.
* The HTTP transport (the `request` library) is an external collaborator,
  modelled as a function from the full request (url, Authorization header,
  method, JSON payload) to an outcome.  An outcome is either the callback
  invocation `(error, response, body)` — with `error : Option String`,
  `none` standing for a null/undefined (falsy) error — or a synchronous
  throw inside the promise executor (e.g. `request` throwing on an invalid
  URI), which the `new Promise` constructor converts into a rejection.
* Response bodies are a type parameter `β`; JS truthiness of a body, where
  the code tests it, is a parameter `truthy : β → Bool`.
* The result envelope `{success, body?, error?}` is the sum `HResult`.
-/

namespace BcoinWrapper

/-- A fully built HTTP request as assembled by `handler` (src/index.js:28-36):
`url = this.urls[nodeIndex] + endpoint`, an `Authorization` header, the HTTP
method and the JSON payload (passed through unchanged). -/
structure Request (α : Type) where
  url : String
  authorization : String
  method : String
  json : α
  deriving Repr, DecidableEq

/-- Outcome of one transport attempt.  `callback error status body` models the
`request` callback `(error, response, body)`; `thrown e` models a synchronous
exception raised inside the promise executor during the attempt, which the
`Promise` constructor turns into a rejection carrying `e`. -/
inductive TOutcome (β : Type) where
  | callback (error : Option String) (status : Nat) (body : β)
  | thrown (e : String)
  deriving Repr, DecidableEq

/-- The Result Envelope: `{success: true, body}` or `{success: false, error}`
(src/index.js:50 and 56). -/
inductive HResult (β : Type) where
  | success (body : β)
  | failure (error : String)
  deriving Repr, DecidableEq

/-- `error || 'Unknown error.'` (src/index.js:42): the rejection value is the
transport error when one was given (truthy), else the sentinel. -/
def rejectValue (error : Option String) : String :=
  error.getD "Unknown error."

/-- The request `handler` builds at `nodeIndex` (src/index.js:28-36).
`this.urls[nodeIndex]` on an out-of-range index is JS `undefined`, and
`undefined + endpoint` concatenates the string `"undefined"`. -/
def mkReq {α : Type} (urls : List String) (token : String)
    (endpoint method : String) (json : α) (nodeIndex : Nat) : Request α :=
  { url := urls.getD nodeIndex "undefined" ++ endpoint
    authorization := "Basic " ++ token
    method := method
    json := json }

/-- Whether the callback resolves: `!error && response.statusCode === 200`
(src/index.js:38). -/
def attemptOk {β : Type} : TOutcome β → Bool
  | .callback error status _ => error = none && status = 200
  | .thrown _ => false

/-- The value the attempt rejects with: `error || 'Unknown error.'` for a
failing callback, the exception itself for a throw (src/index.js:42, 27). -/
def attemptErr {β : Type} : TOutcome β → String
  | .callback error _ _ => rejectValue error
  | .thrown e => e

/-- `async handler(endpoint, method, json, nodeIndex = 0)` (src/index.js:26-60),
instrumented with the list of requests actually handed to the transport, in
order.  On a resolved attempt (no error, status 200) it returns
`{success: true, body}`; on a rejected attempt it retries at `nodeIndex + 1`
when `nodeIndex + 1 < this.urls.length`, else returns
`{success: false, error}`. -/
def handlerT {α β : Type} (urls : List String) (token : String)
    (transport : Request α → TOutcome β)
    (endpoint method : String) (json : α) (nodeIndex : Nat) :
    HResult β × List (Request α) :=
  let req := mkReq urls token endpoint method json nodeIndex
  match transport req with
  | .callback error status body =>
    if error = none ∧ status = 200 then
      (.success body, [req])
    else if _h : nodeIndex + 1 < urls.length then
      let r := handlerT urls token transport endpoint method json (nodeIndex + 1)
      (r.1, req :: r.2)
    else
      (.failure (rejectValue error), [req])
  | .thrown e =>
    if _h : nodeIndex + 1 < urls.length then
      let r := handlerT urls token transport endpoint method json (nodeIndex + 1)
      (r.1, req :: r.2)
    else
      (.failure e, [req])
termination_by urls.length - nodeIndex
decreasing_by all_goals omega

/-- The handler's returned envelope (the observable return value of
`async handler`). -/
def handler {α β : Type} (urls : List String) (token : String)
    (transport : Request α → TOutcome β)
    (endpoint method : String) (json : α) (nodeIndex : Nat) : HResult β :=
  (handlerT urls token transport endpoint method json nodeIndex).1

/-- Helper: a resolved attempt returns immediately with that attempt's body
and a one-request trace. -/
theorem handlerT_resolve {α β : Type} (urls : List String)
    (token : String) (transport : Request α → TOutcome β)
    (endpoint method : String) (json : α) (nodeIndex : Nat) (body : β)
    (hok : transport (mkReq urls token endpoint method json nodeIndex) =
      .callback none 200 body) :
    handlerT urls token transport endpoint method json nodeIndex =
      (.success body, [mkReq urls token endpoint method json nodeIndex]) := by
  rw [handlerT, hok]
  simp

/-- C2: a resolved first attempt (no transport error, status 200) returns
`{success: true, body}` and the trace holds exactly that one request: no
further endpoint is tried (src/index.js:38-39, 48-50). -/
theorem handler_success_first_attempt {α β : Type} (urls : List String)
    (token : String) (transport : Request α → TOutcome β)
    (endpoint method : String) (json : α) (nodeIndex : Nat) (body : β)
    (hok : transport (mkReq urls token endpoint method json nodeIndex) =
      .callback none 200 body) :
    handlerT urls token transport endpoint method json nodeIndex =
      (.success body, [mkReq urls token endpoint method json nodeIndex]) :=
  handlerT_resolve urls token transport endpoint method json nodeIndex body hok

/-- C2 witness: concrete run with one endpoint. -/
theorem handler_success_first_attempt_witness :
    handlerT ["http://n0"] "tok"
      (fun _ => TOutcome.callback none 200 "info") "/" "GET" (0 : Nat) 0 =
      (.success "info", [mkReq ["http://n0"] "tok" "/" "GET" (0 : Nat) 0]) :=
  handler_success_first_attempt ["http://n0"] "tok" _ "/" "GET" 0 0 "info" rfl

/-- C1: when the attempt at endpoint `i` rejects and the attempt at endpoint
`i + 1` resolves, the envelope is `{success: true, body: endpoint i+1's body}`,
and the request sent to endpoint `i + 1` carries the same endpoint path,
method and JSON payload as the one sent to endpoint `i` — only the base URL
changes (src/index.js:53-54). -/
theorem handler_failover {α β : Type} (urls : List String)
    (token : String) (transport : Request α → TOutcome β)
    (endpoint method : String) (json : α) (i : Nat) (b : β)
    (hi : i + 1 < urls.length)
    (hfail : attemptOk (transport (mkReq urls token endpoint method json i)) = false)
    (hok : transport (mkReq urls token endpoint method json (i + 1)) =
      .callback none 200 b) :
    handlerT urls token transport endpoint method json i =
      (.success b, [mkReq urls token endpoint method json i,
                    mkReq urls token endpoint method json (i + 1)]) ∧
    (mkReq urls token endpoint method json (i + 1)).method =
      (mkReq urls token endpoint method json i).method ∧
    (mkReq urls token endpoint method json (i + 1)).json =
      (mkReq urls token endpoint method json i).json ∧
    (mkReq urls token endpoint method json (i + 1)).url =
      urls.getD (i + 1) "undefined" ++ endpoint ∧
    (mkReq urls token endpoint method json i).url =
      urls.getD i "undefined" ++ endpoint := by
  refine ⟨?_, rfl, rfl, rfl, rfl⟩
  have hnext := handlerT_resolve urls token transport endpoint
    method json (i + 1) b hok
  rw [handlerT]
  cases htr : transport (mkReq urls token endpoint method json i) with
  | callback err s body' =>
    rw [htr] at hfail
    simp only [attemptOk, Bool.and_eq_false_iff, decide_eq_false_iff_not] at hfail
    have hne : ¬(err = none ∧ s = 200) := by
      intro ⟨h1, h2⟩
      rcases hfail with h | h
      · exact h h1
      · exact h h2
    simp only [hne, if_false, hi, dif_pos, hnext]
  | thrown e =>
    simp only [hi, dif_pos, hnext]

/-- C1 witness: two endpoints, the first fails with status 500, the second
resolves. -/
theorem handler_failover_witness :
    handlerT ["http://n0", "http://n1"] "tok"
      (fun r => if r.url = "http://n0/block/7" then TOutcome.callback none 500 "x"
                else TOutcome.callback none 200 "blk")
      "/block/7" "GET" (0 : Nat) 0 =
      (.success "blk", [mkReq ["http://n0", "http://n1"] "tok" "/block/7" "GET" (0 : Nat) 0,
                        mkReq ["http://n0", "http://n1"] "tok" "/block/7" "GET" (0 : Nat) 1]) :=
  (handler_failover ["http://n0", "http://n1"] "tok" _ "/block/7" "GET" 0 0 "blk"
    (by decide) (by decide) (by simp [mkReq])).1

/-- Helper: fuel-indexed induction for the all-endpoints-fail case. -/
theorem handlerT_all_fail_aux {α β : Type} (urls : List String) (token : String)
    (transport : Request α → TOutcome β) (endpoint method : String) (json : α) :
    ∀ (k nodeIndex : Nat), urls.length - nodeIndex ≤ k → nodeIndex < urls.length →
    (∀ j, nodeIndex ≤ j → j < urls.length →
      attemptOk (transport (mkReq urls token endpoint method json j)) = false) →
    (handlerT urls token transport endpoint method json nodeIndex).1 =
      .failure (attemptErr
        (transport (mkReq urls token endpoint method json (urls.length - 1)))) := by
  intro k
  induction k with
  | zero => intro i hk hlt _; omega
  | succ k ih =>
    intro i hk hlt hfail
    have hfi := hfail i le_rfl hlt
    rw [handlerT]
    cases htr : transport (mkReq urls token endpoint method json i) with
    | callback err s b =>
      rw [htr] at hfi
      simp only [attemptOk, Bool.and_eq_false_iff, decide_eq_false_iff_not] at hfi
      have hne : ¬(err = none ∧ s = 200) := by
        intro ⟨h1, h2⟩
        rcases hfi with h | h
        · exact h h1
        · exact h h2
      by_cases hnext : i + 1 < urls.length
      · simp only [hne, if_false, hnext, dif_pos]
        exact ih (i + 1) (by omega) hnext (fun j hj hj2 => hfail j (by omega) hj2)
      · have hi : i = urls.length - 1 := by omega
        simp only [hne, if_false, hnext, dif_neg]
        rw [← hi, htr]
        rfl
    | thrown e =>
      by_cases hnext : i + 1 < urls.length
      · simp only [hnext, dif_pos]
        exact ih (i + 1) (by omega) hnext (fun j hj hj2 => hfail j (by omega) hj2)
      · have hi : i = urls.length - 1 := by omega
        simp only [hnext, dif_neg]
        rw [← hi, htr]
        rfl

/-- C3: if every attempt from `nodeIndex` through the end of the endpoint list
rejects, the handler returns `{success: false, error}` where `error` is the
rejection value of the last endpoint tried: the transport error it reported
when one was given, the sentinel `'Unknown error.'` when the failure carried
no (falsy) transport error, or the raised exception itself for a thrown
attempt (src/index.js:41-42, 55-57). -/
theorem handler_all_endpoints_fail {α β : Type} (urls : List String)
    (token : String) (transport : Request α → TOutcome β)
    (endpoint method : String) (json : α) (nodeIndex : Nat)
    (hlt : nodeIndex < urls.length)
    (hfail : ∀ j, nodeIndex ≤ j → j < urls.length →
      attemptOk (transport (mkReq urls token endpoint method json j)) = false) :
    handler urls token transport endpoint method json nodeIndex =
      .failure (attemptErr
        (transport (mkReq urls token endpoint method json (urls.length - 1)))) :=
  handlerT_all_fail_aux urls token transport endpoint method json
    urls.length nodeIndex (by omega) hlt hfail

/-- C3 witness: two endpoints, the first throws, the second reports a
transport error `"bang"`; the envelope carries `"bang"`. -/
theorem handler_all_endpoints_fail_witness :
    handler ["http://n0", "http://n1"] "tok"
      (fun r => if r.url = "http://n0/" then TOutcome.thrown "t0"
                else TOutcome.callback (some "bang") 0 "z")
      "/" "GET" (0 : Nat) 0 = .failure "bang" := by
  rw [handler_all_endpoints_fail ["http://n0", "http://n1"] "tok" _ "/" "GET" 0 0
    (by decide) (by
      intro j _ hj2
      have hj : j < 2 := by simpa using hj2
      interval_cases j <;> decide)]
  rfl

/-- The `urls` constructor argument (src/index.js:8-12): a single string, an
array of strings, or anything else (omitted/`undefined`, a number, …). -/
inductive UrlsArg where
  | str (s : String)
  | arr (l : List String)
  | other
  deriving Repr, DecidableEq

/-- The normalization the constructor applies to `urls`: a string becomes a
one-element array, an array is kept as is, and anything else leaves
`this.urls` unassigned (JS `undefined`), modelled as `none`
(src/index.js:8-12). -/
def urlsOf : UrlsArg → Option (List String)
  | .str s => some [s]
  | .arr l => some l
  | .other => none

/-- The state a constructed `Node` holds: the token and `this.urls`, which is
`undefined` (`none`) when the `urls` argument was neither string nor array. -/
structure NodeState where
  token : String
  urls : Option (List String)
  deriving Repr, DecidableEq

/-- `constructor(token, urls)` (src/index.js:4-15).  Tokens are strings, so a
falsy token is exactly the empty string; the constructor then throws
`SyntaxError('Token is required.')` synchronously (modelled as `Except.error`).
Otherwise it stores the token unchanged and normalizes `urls` via `urlsOf`.
It performs no network call: no transport capability even appears in its
signature. -/
def construct (token : String) (urls : UrlsArg) : Except String NodeState :=
  if token = "" then .error "Token is required."
  else .ok { token := token, urls := urlsOf urls }

/-- The message of the `TypeError` raised when `this.urls` is `undefined`. -/
def jsTypeError : String := "TypeError: Cannot read properties of undefined"

/-- `handler` on a `Node` whose `this.urls` may be `undefined`.  When it is,
`this.urls[nodeIndex]` inside the promise executor throws a `TypeError`, the
`Promise` constructor converts that throw into a rejection, the `catch` block
receives it, and there `this.urls.length` (src/index.js:53) throws the
`TypeError` again — this time uncaught — so the async call rejects instead of
returning an envelope.  When `this.urls` is an array, every exception path is
confined to the executor (where it becomes a rejection handled by the
`catch`), so the call always returns an envelope. -/
def handlerOpt {α β : Type} (urls? : Option (List String)) (token : String)
    (transport : Request α → TOutcome β)
    (endpoint method : String) (json : α) (nodeIndex : Nat) :
    Except String (HResult β) :=
  match urls? with
  | none => .error jsTypeError
  | some urls => .ok (handler urls token transport endpoint method json nodeIndex)

/-- C4: on a node whose endpoint list is defined, the dispatch handler never
throws: for every path, method, payload and start index — and every transport
behaviour, including attempts that raise exceptions (`TOutcome.thrown`) — the
call returns an envelope, and that envelope is `success` with a body or
`failure` with an error (src/index.js:26-60). -/
theorem handler_never_throws {α β : Type} (urls : List String) (token : String)
    (transport : Request α → TOutcome β)
    (endpoint method : String) (json : α) (nodeIndex : Nat) :
    handlerOpt (some urls) token transport endpoint method json nodeIndex =
      .ok (handler urls token transport endpoint method json nodeIndex) ∧
    ((∃ b, handler urls token transport endpoint method json nodeIndex =
        .success b) ∨
     (∃ e, handler urls token transport endpoint method json nodeIndex =
        .failure e)) := by
  refine ⟨rfl, ?_⟩
  cases h : handler urls token transport endpoint method json nodeIndex with
  | success b => exact Or.inl ⟨b, rfl⟩
  | failure e => exact Or.inr ⟨e, rfl⟩

/-- C9: a falsy token (for string tokens: exactly the empty string) makes the
constructor throw the configuration error synchronously — no network call is
possible since `construct` involves no transport — and any truthy (non-empty)
token constructs successfully with the token stored unchanged
(src/index.js:5-6). -/
theorem construct_token_validation :
    (∀ u, construct "" u = .error "Token is required.") ∧
    (∀ t u, t ≠ "" → ∃ n, construct t u = .ok n ∧ n.token = t) := by
  refine ⟨fun u => rfl, fun t u ht => ⟨⟨t, urlsOf u⟩, ?_, rfl⟩⟩
  simp [construct, ht]

/-- C9 witness: empty token rejected; token `"tok"` accepted and stored. -/
theorem construct_token_validation_witness :
    construct "" (UrlsArg.str "http://n0") = .error "Token is required." ∧
    ∃ n, construct "tok" (UrlsArg.str "http://n0") = .ok n ∧ n.token = "tok" :=
  ⟨construct_token_validation.1 (UrlsArg.str "http://n0"),
   construct_token_validation.2 "tok" (UrlsArg.str "http://n0") (by decide)⟩

/-- C10: the constructor never validates `urls`: with an argument that is
neither string nor array it succeeds leaving `this.urls` undefined, and with
an empty array it succeeds with zero endpoints, although the configuration
requires at least one; and on the undefined-`urls` node every handler call
rejects with a thrown `TypeError` instead of returning an envelope
(src/index.js:8-12, 30, 53). -/
theorem construct_skips_urls_validation :
    (∀ t, t ≠ "" →
      construct t UrlsArg.other = .ok ⟨t, none⟩ ∧
      construct t (UrlsArg.arr []) = .ok ⟨t, some []⟩) ∧
    (∀ (α β : Type) (token : String) (transport : Request α → TOutcome β)
      (endpoint method : String) (json : α) (nodeIndex : Nat),
      handlerOpt none token transport endpoint method json nodeIndex =
        .error jsTypeError) := by
  refine ⟨fun t ht => ⟨?_, ?_⟩, fun _ _ _ _ _ _ _ _ => rfl⟩ <;>
    simp [construct, ht, urlsOf]

/-- C10 witness: token `"tok"` with an omitted/invalid `urls` argument and
with an empty array; a handler call on the undefined-`urls` node throws. -/
theorem construct_skips_urls_validation_witness :
    (construct "tok" UrlsArg.other = .ok ⟨"tok", none⟩ ∧
     construct "tok" (UrlsArg.arr []) = .ok ⟨"tok", some []⟩) ∧
    handlerOpt (α := Nat) (β := String) none "tok"
      (fun _ => TOutcome.callback none 200 "b") "/" "GET" 0 0 =
      .error jsTypeError :=
  ⟨construct_skips_urls_validation.1 "tok" (by decide),
   construct_skips_urls_validation.2 Nat String "tok" _ "/" "GET" 0 0⟩

/-- The heights visited by `for (let block = begin; block <= end; block++)`
(src/index.js:103), in loop order: `begin, begin+1, …, end`, empty when
`begin > end`. -/
def blockRange (b e : Int) : List Int :=
  (List.range (e + 1 - b).toNat).map (fun k : Nat => b + (k : Int))

/-- The endpoint `getBlocks`/`getBlock` builds for a height:
`` `/block/${block}` `` (src/index.js:104). -/
def blockEndpoint (h : Int) : String := "/block/" ++ toString h

/-- `async getBlocks(begin, end)` (src/index.js:97-123): one handler call per
height in `[begin, end]` (each at `nodeIndex = 0` with a `GET` and empty
payload, modelled as `Unit`), then `Promise.all` — which yields the outcomes
in input (ascending-height) order irrespective of completion order — and a
`forEach` that pushes `response.body` exactly when
`response.success && response.body`, JS truthiness of the body being the
parameter `truthy`. -/
def getBlocks {β : Type} (urls : List String) (token : String)
    (transport : Request Unit → TOutcome β) (truthy : β → Bool)
    (b e : Int) : List β :=
  let responses := (blockRange b e).map
    (fun h => handler urls token transport (blockEndpoint h) "GET" () 0)
  responses.foldl
    (fun blocks r =>
      match r with
      | .success body => if truthy body then blocks ++ [body] else blocks
      | .failure _ => blocks) []

/-- The per-response filter of `getBlocks` as an `Option`: the body when the
envelope is a success and the body is truthy, `none` otherwise. -/
def keptBody {β : Type} (truthy : β → Bool) : HResult β → Option β
  | .success body => if truthy body then some body else none
  | .failure _ => none

/-- Helper: the push-`forEach` of `getBlocks` is a `filterMap`. -/
theorem foldl_push_eq_filterMap {β : Type} (truthy : β → Bool) :
    ∀ (rs : List (HResult β)) (acc : List β),
      rs.foldl
        (fun blocks r =>
          match r with
          | .success body => if truthy body then blocks ++ [body] else blocks
          | .failure _ => blocks) acc
      = acc ++ rs.filterMap (keptBody truthy) := by
  intro rs
  induction rs with
  | nil => intro acc; simp
  | cons r rs ih =>
    intro acc
    cases r with
    | success body =>
      by_cases hb : truthy body = true
      · simp [List.foldl_cons, ih, keptBody, hb]
      · simp only [Bool.not_eq_true] at hb
        simp [List.foldl_cons, ih, keptBody, hb]
    | failure e => simp [List.foldl_cons, ih, keptBody]

/-- Helper: `blockRange` is strictly ascending. -/
theorem blockRange_pairwise (b e : Int) : (blockRange b e).Pairwise (· < ·) := by
  unfold blockRange
  rw [List.pairwise_map]
  exact (List.pairwise_lt_range _).imp (fun {x y} h => by omega)

/-- C6: for `begin ≤ end`, `getBlocks` returns, over the strictly ascending
height list, exactly the bodies of the responses that are successes with a
truthy (non-empty) body — failed heights are silently dropped and the call
itself still returns a list (src/index.js:111-121). -/
theorem getBlocks_ordered_filter {β : Type} (urls : List String)
    (token : String) (transport : Request Unit → TOutcome β)
    (truthy : β → Bool) (b e : Int) (_hbe : b ≤ e) :
    getBlocks urls token transport truthy b e =
      (blockRange b e).filterMap (fun h =>
        keptBody truthy (handler urls token transport (blockEndpoint h) "GET" () 0)) ∧
    (blockRange b e).Pairwise (· < ·) := by
  refine ⟨?_, blockRange_pairwise b e⟩
  unfold getBlocks
  rw [foldl_push_eq_filterMap, List.nil_append, List.filterMap_map]
  rfl

/-- C6 witness: heights 10–12 against a transport answering each. -/
theorem getBlocks_ordered_filter_witness :
    (10 : Int) ≤ 12 ∧
    (getBlocks ["http://n0"] "tok"
        (fun r => TOutcome.callback none 200 ("blk" ++ r.url))
        (fun s => !s.isEmpty) 10 12 =
      (blockRange 10 12).filterMap (fun h =>
        keptBody (fun s => !s.isEmpty)
          (handler ["http://n0"] "tok"
            (fun r => TOutcome.callback none 200 ("blk" ++ r.url))
            (blockEndpoint h) "GET" () 0)) ∧
      (blockRange 10 12).Pairwise (· < ·)) :=
  ⟨by decide,
   getBlocks_ordered_filter ["http://n0"] "tok" _ _ 10 12 (by decide)⟩

/-- Helper: a degenerate range is empty. -/
theorem blockRange_empty (b e : Int) (h : e < b) : blockRange b e = [] := by
  unfold blockRange
  have h0 : (e + 1 - b).toNat = 0 := by omega
  rw [h0]
  rfl

/-- Helper: a one-height range. -/
theorem blockRange_self (b : Int) : blockRange b b = [b] := by
  unfold blockRange
  have h1 : (b + 1 - b).toNat = 1 := by omega
  rw [h1]
  simp [List.range_succ]

/-- C7 counterexample: with `begin = end = 5` the single fetch succeeds
(status 200) but its body is the empty string, which is falsy, so `getBlocks`
returns the empty sequence — not a one-element one as the claim states
(src/index.js:115 also requires a truthy `response.body`). -/
theorem getBlocks_single_success_empty_body :
    handler ["http://n0"] "tok" (fun _ => TOutcome.callback none 200 "")
      (blockEndpoint 5) "GET" () 0 = .success "" ∧
    getBlocks ["http://n0"] "tok" (fun _ => TOutcome.callback none 200 "")
      (fun s => !s.isEmpty) 5 5 = [] := by
  constructor
  · rw [handler, handlerT]
    rfl
  · unfold getBlocks
    rw [blockRange_self]
    simp only [List.map_cons, List.map_nil, List.foldl_cons, List.foldl_nil]
    rw [handler, handlerT]
    rfl

/-- C7 (amended): `begin > end` gives the empty sequence; `begin = end` gives
exactly the one body when the single fetch succeeds with a truthy (non-empty)
body, and the empty sequence when the fetch fails or when it succeeds with a
falsy/empty body (src/index.js:103, 115). -/
theorem getBlocks_bounds {β : Type} (urls : List String) (token : String)
    (transport : Request Unit → TOutcome β) (truthy : β → Bool) :
    (∀ b e : Int, e < b → getBlocks urls token transport truthy b e = []) ∧
    (∀ (b : Int) (body : β),
      handler urls token transport (blockEndpoint b) "GET" () 0 =
        .success body →
      (truthy body = true → getBlocks urls token transport truthy b b = [body]) ∧
      (truthy body = false → getBlocks urls token transport truthy b b = [])) ∧
    (∀ (b : Int) (err : String),
      handler urls token transport (blockEndpoint b) "GET" () 0 =
        .failure err →
      getBlocks urls token transport truthy b b = []) := by
  refine ⟨fun b e h => ?_, fun b body hs => ⟨fun ht => ?_, fun ht => ?_⟩,
    fun b err hf => ?_⟩ <;>
    unfold getBlocks
  · rw [blockRange_empty b e h]
    rfl
  all_goals
    rw [blockRange_self]
    simp only [List.map_cons, List.map_nil, List.foldl_cons, List.foldl_nil]
  · rw [hs]
    simp [ht]
  · rw [hs]
    simp [ht]
  · rw [hf]

/-- C7 witness: a reversed range, and a one-height range whose fetch succeeds
with the non-empty body `"B"`. -/
theorem getBlocks_bounds_witness :
    getBlocks ["http://n0"] "tok" (fun _ => TOutcome.callback none 200 "B")
      (fun s => !s.isEmpty) 9 3 = [] ∧
    getBlocks ["http://n0"] "tok" (fun _ => TOutcome.callback none 200 "B")
      (fun s => !s.isEmpty) 5 5 = ["B"] :=
  ⟨(getBlocks_bounds ["http://n0"] "tok" _ _).1 9 3 (by decide),
   ((getBlocks_bounds ["http://n0"] "tok" _ _).2.1 5 "B"
      (by rw [handler, handlerT]; rfl)).1 (by decide)⟩

/-- A UTXO's `value` field as delivered in the JSON body: a JS number or a JS
numeric string (src/index.js:214).  `str n` carries the result of the
`Number(...)` coercion the code applies to the string (src/index.js:215);
node responses carry integral smallest-unit amounts. -/
inductive UtxoVal where
  | num (n : Int)
  | str (n : Int)
  deriving Repr, DecidableEq

/-- `typeof utxo.value === 'string'` is false (src/index.js:214). -/
def UtxoVal.isNum : UtxoVal → Bool
  | .num _ => true
  | .str _ => false

/-- The numeric content of a value (`Number(utxo.value)`). -/
def UtxoVal.toInt : UtxoVal → Int
  | .num n => n
  | .str n => n

/-- A UTXO record as consumed by `getBalance`. -/
structure Utxo where
  height : Int
  value : UtxoVal
  deriving Repr, DecidableEq

/-- The two accumulator variables of `getBalance` (src/index.js:210-211).
Each starts as the JS number `0` and becomes a string — the result of
`.toString()` — on first assignment; the `…IsString` flags record which type
the variable currently holds, which decides JS truthiness at
src/index.js:222 (a string, even `"0"`, is truthy; the number `0` is not). -/
structure BalAcc where
  balance : Int
  balanceIsString : Bool
  balanceInSatoshis : Int
  satoshisIsString : Bool
  deriving Repr, DecidableEq

/-- One iteration of the `utxos.forEach` (src/index.js:212-220): confirmed
(`height > 0`) string values are added — via the arbitrary-precision adder —
into `balance`, confirmed numeric values into `balanceInSatoshis`;
unconfirmed UTXOs are skipped entirely. -/
def balStep (acc : BalAcc) (u : Utxo) : BalAcc :=
  if u.height > 0 then
    match u.value with
    | .str n => { acc with balance := n + acc.balance, balanceIsString := true }
    | .num n => { acc with balanceInSatoshis := n + acc.balanceInSatoshis,
                           satoshisIsString := true }
  else acc

/-- A value `getBalance` can resolve to: a JS number (possibly fractional,
after satoshi→major-unit conversion) or the string the decimal adder's
`.toString()` produced. -/
inductive BalVal where
  | num (q : ℚ)
  | str (n : Int)
  deriving Repr, DecidableEq

/-- The smallest-unit factor of a currency with 8 smallest-unit digits
(`satoshi-bitcoin`). -/
def satoshiFactor : ℚ := 100000000

/-- `sb.toBitcoin` (src/index.js:224): exact division by the smallest-unit
factor. -/
def toBitcoin (sat : Int) : ℚ := (sat : ℚ) / satoshiFactor

/-- The value computed from a successful UTXO fetch (src/index.js:207-227):
run the `forEach`, then — iff `balanceInSatoshis` is truthy, i.e. has become
a string — convert it to major units and return that; otherwise return
`balance` as it stands (a string if any confirmed string value was added,
else the number `0`). -/
def balanceOf (utxos : List Utxo) : BalVal :=
  let acc := utxos.foldl balStep ⟨0, false, 0, false⟩
  if acc.satoshisIsString then .num (toBitcoin acc.balanceInSatoshis)
  else if acc.balanceIsString then .str acc.balance
  else .num 0

/-- The endpoint of the UTXO fetch: `` `/coin/address/${address}` ``
(src/index.js:202). -/
def utxoEndpoint (address : String) : String := "/coin/address/" ++ address

/-- `async getBalance(address)` (src/index.js:200-229): fetch the UTXOs via
the handler (`GET`, empty payload, `nodeIndex = 0`); on a success envelope
return the computed balance, otherwise fall off the end of the function —
JS `undefined`, modelled as `none`. -/
def getBalance (urls : List String) (token : String)
    (transport : Request Unit → TOutcome (List Utxo)) (address : String) :
    Option BalVal :=
  match handler urls token transport (utxoEndpoint address) "GET" () 0 with
  | .success utxos => some (balanceOf utxos)
  | .failure _ => none

/-- The smallest-unit sum over confirmed UTXOs, written the way claim C5
describes the computation: filter to `height > 0`, sum the value fields. -/
def confirmedSum (utxos : List Utxo) : Int :=
  ((utxos.filter (fun u => u.height > 0)).map (fun u => u.value.toInt)).sum

/-- The balance exactly as C5's words describe it, for comparison with the
code's `balanceOf`: the confirmed smallest-unit sum divided by the currency's
smallest-unit factor. -/
def specBalance (utxos : List Utxo) : BalVal :=
  .num ((confirmedSum utxos : ℚ) / satoshiFactor)

/-- Helper: when every confirmed UTXO carries a numeric value, the `forEach`
only feeds the satoshi accumulator, which ends at the confirmed sum, and it
becomes a string exactly when some confirmed UTXO exists. -/
theorem foldl_balStep_numeric :
    ∀ (utxos : List Utxo),
      (∀ u ∈ utxos, u.height > 0 → u.value.isNum = true) →
      ∀ acc : BalAcc,
        utxos.foldl balStep acc =
          { acc with
            balanceInSatoshis := confirmedSum utxos + acc.balanceInSatoshis,
            satoshisIsString :=
              acc.satoshisIsString || utxos.any (fun u => decide (u.height > 0)) } := by
  intro utxos
  induction utxos with
  | nil =>
    intro _ acc
    simp [confirmedSum]
  | cons u rest ih =>
    intro hnum acc
    by_cases hu : u.height > 0
    · have hn : u.value.isNum = true := hnum u (List.mem_cons_self u rest) hu
      obtain ⟨n, hv⟩ : ∃ n, u.value = .num n := by
        cases hval : u.value with
        | num n => exact ⟨n, rfl⟩
        | str n => rw [hval] at hn; exact absurd hn (by simp [UtxoVal.isNum])
      have hstep : balStep acc u =
          { acc with balanceInSatoshis := n + acc.balanceInSatoshis,
                     satoshisIsString := true } := by
        unfold balStep
        rw [hv, if_pos hu]
      have hsum : confirmedSum (u :: rest) = n + confirmedSum rest := by
        unfold confirmedSum
        rw [List.filter_cons_of_pos (by simpa using hu), List.map_cons,
          List.sum_cons, hv]
        rfl
      rw [List.foldl_cons, hstep,
        ih (fun v hv hh => hnum v (List.mem_cons_of_mem u hv) hh), hsum]
      dsimp only
      congr 1
      · omega
      · simp only [List.any_cons]
        rw [show decide (u.height > 0) = true by simpa using hu]
        simp
    · have hstep : balStep acc u = acc := by
        unfold balStep
        rw [if_neg hu]
      have hsum : confirmedSum (u :: rest) = confirmedSum rest := by
        unfold confirmedSum
        rw [List.filter_cons_of_neg (by simpa using hu)]
      rw [List.foldl_cons, hstep,
        ih (fun v hv hh => hnum v (List.mem_cons_of_mem u hv) hh), hsum]
      simp [hu]

/-- Helper: on all-numeric confirmed values the code's balance equals the
spec-described balance. -/
theorem balanceOf_numeric (utxos : List Utxo)
    (hnum : ∀ u ∈ utxos, u.height > 0 → u.value.isNum = true) :
    balanceOf utxos = specBalance utxos := by
  unfold balanceOf
  rw [foldl_balStep_numeric utxos hnum ⟨0, false, 0, false⟩]
  by_cases hany : utxos.any (fun u => decide (u.height > 0)) = true
  · simp [hany, specBalance, toBitcoin]
  · simp only [Bool.not_eq_true] at hany
    have hnil : utxos.filter (fun u => decide (u.height > 0)) = [] := by
      rw [List.filter_eq_nil_iff]
      intro u hu
      have := List.any_eq_false.mp hany u hu
      simpa using this
    have hzero : confirmedSum utxos = 0 := by
      unfold confirmedSum
      rw [hnil]
      rfl
    simp [hany, specBalance, hzero]

/-- C5 (amended): for every response whose confirmed (`height > 0`) UTXOs all
carry numeric (non-string) values, `getBalance` sums exactly the confirmed
values with exact (arbitrary-precision) arithmetic and divides by the
currency's smallest-unit factor `10^8`; confirmed string-typed values are
accumulated separately and would be discarded whenever any numeric confirmed
value exists (src/index.js:212-227). -/
theorem getBalance_confirmed_numeric_sum (urls : List String) (token : String)
    (transport : Request Unit → TOutcome (List Utxo)) (address : String)
    (utxos : List Utxo)
    (hresp : handler urls token transport (utxoEndpoint address) "GET" () 0 =
      .success utxos)
    (hnum : ∀ u ∈ utxos, u.height > 0 → u.value.isNum = true) :
    getBalance urls token transport address = some (specBalance utxos) := by
  unfold getBalance
  rw [hresp]
  exact congrArg some (balanceOf_numeric utxos hnum)

/-- C5 witness: the claim's example — UTXOs
`[{height:100, value:500000000}, {height:0, value:999999999}]` with 8
smallest-unit digits give balance 5 in major units. -/
theorem getBalance_confirmed_numeric_sum_witness :
    getBalance ["http://n0"] "tok"
      (fun _ => TOutcome.callback none 200
        [⟨100, .num 500000000⟩, ⟨0, .num 999999999⟩]) "addr" =
      some (BalVal.num 5) := by
  rw [getBalance_confirmed_numeric_sum ["http://n0"] "tok" _ "addr"
    [⟨100, .num 500000000⟩, ⟨0, .num 999999999⟩]
    (by rw [handler, handlerT]; rfl) (by decide)]
  rw [specBalance, show confirmedSum
    [⟨100, .num 500000000⟩, ⟨0, .num 999999999⟩] = 500000000 from by decide]
  simp only [Option.some.injEq, BalVal.num.injEq, satoshiFactor]
  norm_num

/-- A UTXO list mixing a string-typed and a number-typed confirmed value. -/
def mixedUtxos : List Utxo := [⟨1, .str 100000000⟩, ⟨1, .num 200000000⟩]

/-- C5 counterexample: on `mixedUtxos` the code returns 2 — the string-typed
confirmed value is accumulated apart and then discarded by the
`if (balanceInSatoshis)` overwrite (src/index.js:222-224) — while the claim's
described computation (sum all confirmed values, divide by `10^8`) gives 3. -/
theorem getBalance_mixed_values_counterexample :
    getBalance ["http://n0"] "tok"
      (fun _ => TOutcome.callback none 200 mixedUtxos) "addr" =
      some (BalVal.num 2) ∧
    specBalance mixedUtxos = BalVal.num 3 ∧
    getBalance ["http://n0"] "tok"
      (fun _ => TOutcome.callback none 200 mixedUtxos) "addr" ≠
      some (specBalance mixedUtxos) := by
  have hb : balanceOf mixedUtxos = BalVal.num 2 := by
    unfold balanceOf
    rw [show mixedUtxos.foldl balStep ⟨0, false, 0, false⟩ =
      ⟨100000000, true, 200000000, true⟩ from by decide]
    simp only [if_true]
    rw [toBitcoin, satoshiFactor]
    norm_num
  have hh : handler ["http://n0"] "tok"
      (fun _ => TOutcome.callback none 200 mixedUtxos)
      (utxoEndpoint "addr") "GET" () 0 = .success mixedUtxos := by
    rw [handler, handlerT_resolve ["http://n0"] "tok" _
      (utxoEndpoint "addr") "GET" () 0 mixedUtxos rfl]
  have h : getBalance ["http://n0"] "tok"
      (fun _ => TOutcome.callback none 200 mixedUtxos) "addr" =
      some (BalVal.num 2) := by
    unfold getBalance
    rw [hh]
    exact congrArg some hb
  have hs : specBalance mixedUtxos = BalVal.num 3 := by
    rw [specBalance, show confirmedSum mixedUtxos = 300000000 from by decide]
    simp only [BalVal.num.injEq, satoshiFactor]
    norm_num
  refine ⟨h, hs, ?_⟩
  rw [h, hs]
  simp

/-- C8: whenever the UTXO fetch yields a failure envelope, `getBalance`
resolves to no value at all (`undefined`, modelled `none`): the failure is
swallowed, with no failure indicator and no throw (src/index.js:207-229, the
`if (response.success)` with no `else`). -/
theorem getBalance_swallows_failure (urls : List String) (token : String)
    (transport : Request Unit → TOutcome (List Utxo)) (address : String)
    (err : String)
    (hf : handler urls token transport (utxoEndpoint address) "GET" () 0 =
      .failure err) :
    getBalance urls token transport address = none := by
  unfold getBalance
  rw [hf]

/-- C8 witness: a single endpoint reporting a transport error. -/
theorem getBalance_swallows_failure_witness :
    getBalance ["http://n0"] "tok"
      (fun _ => TOutcome.callback (some "down") 500 ([] : List Utxo)) "addr" =
      none :=
  getBalance_swallows_failure ["http://n0"] "tok" _ "addr" "down"
    (by rw [handler, handlerT]; rfl)

end BcoinWrapper
